import Mathlib

/-!
# Verification of the password strength analyzer core

A shallow embedding of the core functions of `password_app.py`:

* `check_hibp_breach` — the k-anonymity breach lookup (SHA-1 hashing, the
  5-character prefix request, and the local suffix scan of the response body);
* `calculate_entropy` — the character-class entropy estimate;
* `generate_strong_password` — the rejection-sampling password generator;
* the risk reporting in `main` (entropy threshold and breach flag).

Python byte strings and response bodies are modelled as `List Nat`
(byte values) and `List Char`; `hashlib.sha1` is embedded as a full SHA-1
implementation over `Nat` with explicit `% 2^32` arithmetic; the HTTP call
of `requests.get` is passed in as an explicit `Except` value (connection
failures raise, successful calls carry a status code and a body, exactly the
interface the Python code consumes).
-/

/-! ## UTF-8 encoding, modelling Python's `password.encode()` -/

/-- The UTF-8 bytes of one character (scalar values only, which is what
`Char` carries). -/
def utf8Bytes (c : Char) : List Nat :=
  let n := c.toNat
  if n < 0x80 then [n]
  else if n < 0x800 then
    [0xC0 ||| (n >>> 6), 0x80 ||| (n &&& 0x3F)]
  else if n < 0x10000 then
    [0xE0 ||| (n >>> 12), 0x80 ||| ((n >>> 6) &&& 0x3F), 0x80 ||| (n &&& 0x3F)]
  else
    [0xF0 ||| (n >>> 18), 0x80 ||| ((n >>> 12) &&& 0x3F),
     0x80 ||| ((n >>> 6) &&& 0x3F), 0x80 ||| (n &&& 0x3F)]

/-- `password.encode()`: the UTF-8 bytes of the string. -/
def pyEncode (s : String) : List Nat := (s.data.map utf8Bytes).flatten

/-! ## SHA-1 over byte lists (modelling `hashlib.sha1`) -/

/-- Truncation to a 32-bit word. -/
def w32 (n : Nat) : Nat := n % 2 ^ 32

/-- 32-bit left rotation by `k`. -/
def rotl (k x : Nat) : Nat := w32 ((x <<< k) ||| (x >>> (32 - k)))

/-- SHA-1 padding: append `0x80`, zeros to 56 mod 64, then the bit length
as 8 big-endian bytes. -/
def sha1Pad (msg : List Nat) : List Nat :=
  let bitLen := 8 * msg.length
  let zeros := (120 - (msg.length + 1) % 64) % 64
  msg ++ [0x80] ++ List.replicate zeros 0 ++
    ((List.range 8).map fun i => (bitLen >>> (8 * (7 - i))) % 256)

/-- Split a byte list into 64-byte chunks: structural recursion on a fuel
bound (`l.length` steps always suffice, each step consumes 64 > 1 bytes). -/
def chunks64Aux : Nat → List Nat → List (List Nat)
  | 0, _ => []
  | _ + 1, [] => []
  | fuel + 1, l => l.take 64 :: chunks64Aux fuel (l.drop 64)

/-- Split a byte list into 64-byte chunks. -/
def chunks64 (l : List Nat) : List (List Nat) := chunks64Aux l.length l

/-- A big-endian word from a byte list. -/
def beWord (b : List Nat) : Nat := b.foldl (fun acc x => acc * 256 + x) 0

/-- The 16 big-endian 32-bit words of a 64-byte chunk. -/
def chunkWords (chunk : List Nat) : List Nat :=
  (List.range 16).map fun i => beWord ((chunk.drop (4 * i)).take 4)

/-- Extend 16 words to the 80-word message schedule. -/
def sha1Extend (w16 : List Nat) : List Nat :=
  (List.range 64).foldl
    (fun w _ =>
      w ++ [rotl 1 ((w.getD (w.length - 3) 0) ^^^ (w.getD (w.length - 8) 0) ^^^
                    (w.getD (w.length - 14) 0) ^^^ (w.getD (w.length - 16) 0))])
    w16

/-- The SHA-1 round constant for round `t`. -/
def sha1K (t : Nat) : Nat :=
  if t < 20 then 0x5A827999
  else if t < 40 then 0x6ED9EBA1
  else if t < 60 then 0x8F1BBCDC
  else 0xCA62C1D6

/-- The SHA-1 round function for round `t`. -/
def sha1F (t b c d : Nat) : Nat :=
  if t < 20 then (b &&& c) ||| ((b ^^^ 0xFFFFFFFF) &&& d)
  else if t < 40 then b ^^^ c ^^^ d
  else if t < 60 then (b &&& c) ||| (b &&& d) ||| (c &&& d)
  else b ^^^ c ^^^ d

/-- The five 32-bit state words of SHA-1. -/
structure Sha1State where
  h0 : Nat
  h1 : Nat
  h2 : Nat
  h3 : Nat
  h4 : Nat
deriving DecidableEq

/-- The SHA-1 initial state. -/
def sha1Init : Sha1State :=
  ⟨0x67452301, 0xEFCDAB89, 0x98BADCFE, 0x10325476, 0xC3D2E1F0⟩

/-- Process one 64-byte chunk. -/
def sha1Chunk (st : Sha1State) (chunk : List Nat) : Sha1State :=
  let w := sha1Extend (chunkWords chunk)
  let step := fun (x : Nat × Nat × Nat × Nat × Nat) (t : Nat) =>
    let (a, b, c, d, e) := x
    (w32 (rotl 5 a + sha1F t b c d + e + sha1K t + w.getD t 0),
     a, rotl 30 b, c, d)
  let r := (List.range 80).foldl step (st.h0, st.h1, st.h2, st.h3, st.h4)
  ⟨w32 (st.h0 + r.1), w32 (st.h1 + r.2.1), w32 (st.h2 + r.2.2.1),
   w32 (st.h3 + r.2.2.2.1), w32 (st.h4 + r.2.2.2.2)⟩

/-- The five 32-bit digest words of a byte message. -/
def sha1Words (msg : List Nat) : List Nat :=
  let st := (chunks64 (sha1Pad msg)).foldl sha1Chunk sha1Init
  [st.h0, st.h1, st.h2, st.h3, st.h4]

/-- An uppercase hexadecimal digit. -/
def hexDigit (n : Nat) : Char := "0123456789ABCDEF".data.getD n '0'

/-- A 32-bit word as 8 uppercase hexadecimal characters. -/
def wordHex8 (w : Nat) : List Char :=
  (List.range 8).map fun i => hexDigit ((w >>> (4 * (7 - i))) % 16)

/-- `hashlib.sha1(msg).hexdigest().upper()`: the 40 uppercase hexadecimal
characters of the SHA-1 digest. -/
def sha1HexUpper (msg : List Nat) : List Char :=
  ((sha1Words msg).map wordHex8).flatten

/-! ## The breach check `check_hibp_breach`

`sha1_hash = hashlib.sha1(password.encode()).hexdigest().upper()` followed by
`prefix, suffix = sha1_hash[:5], sha1_hash[5:]`, one `requests.get` on the
range endpoint parameterized by the prefix, and
`any(line.split(':')[0] == suffix for line in response.text.splitlines())`. -/

/-- `sha1_hash[:5]`: the first 5 hex characters of the digest. -/
def hashSlice5 (p : String) : List Char := (sha1HexUpper (pyEncode p)).take 5

/-- `sha1_hash[5:]`: the remaining hex characters of the digest. -/
def suffix35 (p : String) : List Char := (sha1HexUpper (pyEncode p)).drop 5

/-- The fixed part of the range-endpoint URL in the `requests.get` call. -/
def urlBase : List Char := "https://api.pwnedpasswords.com/range/".data

/-- An outbound HTTP GET request as the code builds it: the URL of the f-string
and the `User-Agent` header. -/
structure HttpRequest where
  url : List Char
  userAgent : String
deriving DecidableEq

/-- The one request `check_hibp_breach` sends:
`requests.get(f"https://api.pwnedpasswords.com/range/{prefix}",
headers={"User-Agent": "EnterpriseScanner"})`. -/
def hibpRequest (p : String) : HttpRequest :=
  { url := urlBase ++ hashSlice5 p, userAgent := "EnterpriseScanner" }

/-- What `requests.get` hands back on success: a status code and the body
`response.text`. -/
structure HttpResponse where
  statusCode : Nat
  text : List Char
deriving DecidableEq

/-- A failure of the `requests.get` call itself (endpoint unreachable); the
Python call raises in that case and the exception propagates out of
`check_hibp_breach`. -/
inductive RequestError
  | connectionError
deriving DecidableEq

/-- Python `str.split(sep)` (one-character separator), accumulator form. -/
def pySplitAux (sep : Char) (acc : List Char) : List Char → List (List Char)
  | [] => [acc.reverse]
  | c :: rest =>
    if c = sep then acc.reverse :: pySplitAux sep [] rest
    else pySplitAux sep (c :: acc) rest

/-- Python `str.split(sep)` for a one-character separator. -/
def pySplit (sep : Char) (s : List Char) : List (List Char) := pySplitAux sep [] s

/-- `line.split(':')[0]`: the text before the first colon, or the whole line
when it has no colon. -/
def splitColonHead (line : List Char) : List Char := (pySplit ':' line).headD []

/-- The line-break characters Python `str.splitlines` recognizes (with
`'\r'` additionally pairing with a following `'\n'`). -/
def lineBreakChars : List Char :=
  ['\n', '\r', '\x0b', '\x0c', '\x1c', '\x1d', '\x1e', '\x85', '\u2028', '\u2029']

/-- Python `str.splitlines`, accumulator form: every line-break character ends
a line, `"\r\n"` counts once, and a final unterminated line is kept (but a
trailing terminator adds no empty line). -/
def pySplitlinesAux (acc : List Char) : List Char → List (List Char)
  | [] => if acc.isEmpty then [] else [acc.reverse]
  | '\r' :: '\n' :: rest => acc.reverse :: pySplitlinesAux [] rest
  | c :: rest =>
    if lineBreakChars.contains c then acc.reverse :: pySplitlinesAux [] rest
    else pySplitlinesAux (c :: acc) rest

/-- Python `response.text.splitlines()`. -/
def pySplitlines (s : List Char) : List (List Char) := pySplitlinesAux [] s

/-- The local scan:
`any(line.split(':')[0] == suffix for line in response.text.splitlines())`. -/
def scanLines (suffix : List Char) (body : List Char) : Bool :=
  (pySplitlines body).any fun line => splitColonHead line == suffix

/-- `check_hibp_breach`, with the outcome of the `requests.get` call passed in
explicitly: a raised connection error propagates; any response object is
scanned, its status code never inspected. -/
def check_hibp_breach (password : String) (response : Except RequestError HttpResponse) :
    Except RequestError Bool :=
  match response with
  | .error e => .error e
  | .ok r => .ok (scanLines (suffix35 password) r.text)

/-! ## The entropy estimate `calculate_entropy`

The four `re.search` class tests of the source. `[a-z]`, `[A-Z]` and
`[!@#$%^&*]` are literal ASCII ranges/sets; `\d` is modelled on its ASCII
fragment `0-9` (the passwords of every claim are ASCII). -/

/-- `re.search(r'[a-z]', ...)` on one character. -/
def isLowerAZ (c : Char) : Bool := 'a'.toNat ≤ c.toNat && c.toNat ≤ 'z'.toNat

/-- `re.search(r'[A-Z]', ...)` on one character. -/
def isUpperAZ (c : Char) : Bool := 'A'.toNat ≤ c.toNat && c.toNat ≤ 'Z'.toNat

/-- `re.search(r'\d', ...)` on one character. -/
def isDigit09 (c : Char) : Bool := '0'.toNat ≤ c.toNat && c.toNat ≤ '9'.toNat

/-- The fixed symbol subset `"!@#$%^&*"` used by both
`calculate_entropy` and `generate_strong_password`. -/
def symbolSubset : List Char := "!@#$%^&*".data

/-- `re.search(r'[!@#$%^&*]', ...)` on one character. -/
def isSymbolSub (c : Char) : Bool := symbolSubset.contains c

/-- `re.search(r'[a-z]', password)` is truthy. -/
def hasLower (p : String) : Bool := p.data.any isLowerAZ

/-- `re.search(r'[A-Z]', password)` is truthy. -/
def hasUpper (p : String) : Bool := p.data.any isUpperAZ

/-- `re.search(r'\d', password)` is truthy. -/
def hasDigit (p : String) : Bool := p.data.any isDigit09

/-- `re.search(r'[!@#$%^&*]', password)` is truthy. -/
def hasSymbol (p : String) : Bool := p.data.any isSymbolSub

/-- The `charset` accumulator of `calculate_entropy`. -/
def charset (p : String) : Nat :=
  (if hasLower p then 26 else 0) + (if hasUpper p then 26 else 0) +
    (if hasDigit p then 10 else 0) + (if hasSymbol p then 10 else 0)

/-- `calculate_entropy`:
`len(password) * math.log2(charset) if charset else 0`, with the float
arithmetic idealized over `ℝ`. -/
noncomputable def calculate_entropy (p : String) : ℝ :=
  if charset p ≠ 0 then (p.length : ℝ) * Real.logb 2 (charset p) else 0

/-- A character class of the specification's data model. -/
inductive CharsetClass
  | lower
  | upper
  | digit
  | symbol
deriving DecidableEq

/-- The nominal alphabet size the specification assigns to a class. -/
def nominalSize : CharsetClass → Nat
  | .lower => 26
  | .upper => 26
  | .digit => 10
  | .symbol => 10

/-- Whether at least one character of the class occurs in the password. -/
def classPresent (p : String) : CharsetClass → Bool
  | .lower => hasLower p
  | .upper => hasUpper p
  | .digit => hasDigit p
  | .symbol => hasSymbol p

/-- The four classes. -/
def allClasses : List CharsetClass :=
  [.lower, .upper, .digit, .symbol]

/-- The specification's charset size: the sum of the nominal sizes of the
classes present in the password. -/
def specCharset (p : String) : Nat :=
  ((allClasses.filter (classPresent p)).map nominalSize).sum

/-- The charset composition of a password: which of the four classes are
present. -/
def classVector (p : String) : Bool × Bool × Bool × Bool :=
  (hasLower p, hasUpper p, hasDigit p, hasSymbol p)

/-! ## The generator `generate_strong_password`

`chars = string.ascii_letters + string.digits + "!@#$%^&*"`, then a
`while True` loop drawing `length` characters with
`random.SystemRandom().choice(chars)` and accepting the first candidate
that passes all four `re.search` class tests. The random source is modelled
as an explicit family of draws (attempt number ↦ position ↦ index into
`chars`), and the unbounded loop by a fuel parameter: `none` means the loop
has not accepted any candidate within `fuel` iterations. -/

/-- `string.ascii_lowercase`. -/
def asciiLowercase : List Char := "abcdefghijklmnopqrstuvwxyz".data

/-- `string.ascii_uppercase`. -/
def asciiUppercase : List Char := "ABCDEFGHIJKLMNOPQRSTUVWXYZ".data

/-- `string.digits`. -/
def digitChars : List Char := "0123456789".data

/-- `chars = string.ascii_letters + string.digits + "!@#$%^&*"`. -/
def chars : List Char := asciiLowercase ++ asciiUppercase ++ digitChars ++ symbolSubset

/-- One candidate draw:
`''.join(random.SystemRandom().choice(chars) for _ in range(length))`. -/
def candidate (draw : Nat → Fin chars.length) (length : Nat) : List Char :=
  (List.range length).map fun i => chars.get (draw i)

/-- The acceptance test of the loop:
`all([re.search(r'[A-Z]', password), re.search(r'[a-z]', password),
re.search(r'\d', password), re.search(r'[!@#$%^&*]', password)])`. -/
def acceptPassword (pw : List Char) : Bool :=
  pw.any isUpperAZ && pw.any isLowerAZ && pw.any isDigit09 && pw.any isSymbolSub

/-- `generate_strong_password(length)`: the `while True` rejection loop,
returning the first accepted candidate; `attempt` numbers the draws and
`fuel` bounds how many loop iterations are observed. -/
def generate_strong_password (length : Nat) (draws : Nat → Nat → Fin chars.length) :
    Nat → Nat → Option (List Char)
  | _, 0 => none
  | attempt, fuel + 1 =>
    let pw := candidate (draws attempt) length
    if acceptPassword pw then some pw
    else generate_strong_password length draws (attempt + 1) fuel

/-! ## The report of `main`

`risk_level = "High Risk" if entropy < 60 else "Low Risk"`, shown beside the
breach metric `"⚠️ Compromised" if is_breached else "✅ Secure"`. -/

/-- The risk tier `main` computes from the entropy score. -/
noncomputable def risk_level (entropy : ℝ) : String :=
  if entropy < 60 then "High Risk" else "Low Risk"

/-- The breach metric `main` shows. -/
def breach_status (is_breached : Bool) : String :=
  if is_breached then "⚠️ Compromised" else "✅ Secure"

/-- The two verdict fields of the security report, as `main` assembles them:
the breach field from `is_breached` alone, the risk field from `entropy`
alone. -/
noncomputable def security_report (is_breached : Bool) (entropy : ℝ) : String × String :=
  (breach_status is_breached, risk_level entropy)

/-! ## Helper lemmas -/

set_option maxRecDepth 1000000

theorem sha1HexUpper_length (msg : List Nat) : (sha1HexUpper msg).length = 40 := by
  simp [sha1HexUpper, sha1Words, wordHex8, List.length_flatten]

theorem suffix35_length (p : String) : (suffix35 p).length = 35 := by
  simp [suffix35, List.length_drop, sha1HexUpper_length]

theorem hashSlice5_length (p : String) : (hashSlice5 p).length = 5 := by
  simp [hashSlice5, List.length_take, sha1HexUpper_length]

theorem pySplitAux_headD (sep : Char) (acc l : List Char) :
    (pySplitAux sep acc l).headD [] = acc.reverse ++ l.takeWhile (fun c => c != sep) := by
  induction l generalizing acc with
  | nil => simp [pySplitAux]
  | cons c rest ih =>
    by_cases h : c = sep
    · have h1 : pySplitAux sep acc (c :: rest) = acc.reverse :: pySplitAux sep [] rest := by
        simp [pySplitAux, h]
      rw [h1]
      simp [List.takeWhile_cons, h]
    · have h1 : pySplitAux sep acc (c :: rest) = pySplitAux sep (c :: acc) rest := by
        simp [pySplitAux, h]
      rw [h1, ih]
      simp [List.takeWhile_cons, h]

theorem splitColonHead_eq_takeWhile (line : List Char) :
    splitColonHead line = line.takeWhile (fun c => c != ':') := by
  have h := pySplitAux_headD ':' [] line
  simpa [splitColonHead, pySplit] using h

/-! ## The claims -/

/-- **C1.** The one outbound request of the breach check is a function of the
first 5 hexadecimal characters of the uppercase SHA-1 digest alone: two
passwords whose digests agree on that 5-character slice yield equal requests
(URL and header), and the URL is exactly the fixed endpoint followed by those
5 characters — 5 digest characters and nothing else of the password enter it. -/
theorem hibp_request_depends_only_on_hash_slice5 (p q : String)
    (h : hashSlice5 p = hashSlice5 q) :
    hibpRequest p = hibpRequest q ∧
      (hibpRequest p).url = urlBase ++ hashSlice5 p ∧
      (hibpRequest p).url.length = urlBase.length + 5 := by
  refine ⟨?_, rfl, ?_⟩
  · simp [hibpRequest, h]
  · simp [hibpRequest, List.length_append, hashSlice5_length]

/-- Witness for C1: `"du"` and `"adb"` are distinct passwords whose uppercase
SHA-1 digests share the 5-character slice `"FA114"`, and their requests are
identical. -/
theorem hibp_request_depends_only_on_hash_slice5_witness :
    hashSlice5 "du" = hashSlice5 "adb" ∧ hibpRequest "du" = hibpRequest "adb" :=
  have h : hashSlice5 "du" = hashSlice5 "adb" := by decide
  ⟨h, (hibp_request_depends_only_on_hash_slice5 "du" "adb" h).1⟩

/-- **C2.** For every password, status code and response body: the suffix the
scan compares against is the full 35-character remainder of the digest, and
the breach check reports compromised exactly when some line of the body has
its before-the-first-colon component equal to that entire suffix. -/
theorem breach_iff_exact_full_suffix_match (p : String) (s : Nat) (body : List Char) :
    (suffix35 p).length = 35 ∧
      (check_hibp_breach p (Except.ok ⟨s, body⟩) = Except.ok true ↔
        ∃ line ∈ pySplitlines body, splitColonHead line = suffix35 p) := by
  refine ⟨suffix35_length p, ?_⟩
  simp [check_hibp_breach, scanLines, List.any_eq_true]

/-- **C10.** The local scan is a total boolean function of the body: the
compared component of a line is the text before its first colon (the whole
line when it has no colon), a component that is not 35 characters long can
never equal the computed 35-character suffix, and the scan is false exactly
when no line's component equals the suffix — malformed lines are ordinary
non-matching records, not a distinct failure. -/
theorem scan_total_malformed_lines_nonmatching (p : String) (body : List Char) :
    (∀ line : List Char, splitColonHead line = line.takeWhile (fun c => c != ':'))
    ∧ (∀ line : List Char,
        (splitColonHead line).length ≠ 35 → splitColonHead line ≠ suffix35 p)
    ∧ (scanLines (suffix35 p) body = false ↔
        ∀ line ∈ pySplitlines body, splitColonHead line ≠ suffix35 p) := by
  refine ⟨splitColonHead_eq_takeWhile, fun line hlen heq => hlen ?_, ?_⟩
  · rw [heq]
    exact suffix35_length p
  · simp [scanLines, List.any_eq_false]

/-- **C4 (the code, not the claim).** On a status-500 response with an empty
body, `check_hibp_breach` returns `ok false` — a "not breached" verdict, not
a network failure: the status code is never inspected. Only a raised
connection error (endpoint unreachable) propagates as a failure. -/
theorem status500_scanned_not_failed :
    check_hibp_breach "password" (Except.ok ⟨500, []⟩) = Except.ok false ∧
      (∀ e, check_hibp_breach "password" (Except.error e) = Except.error e) :=
  ⟨rfl, fun _ => rfl⟩

theorem charset_eq_specCharset (p : String) : charset p = specCharset p := by
  cases hl : hasLower p <;> cases hu : hasUpper p <;> cases hd : hasDigit p <;>
    cases hs : hasSymbol p <;>
      simp [charset, specCharset, allClasses, classPresent, nominalSize, hl, hu, hd, hs]

/-- **C3.** `calculate_entropy` returns `length * log2(charset_size)` where
`charset_size` is the sum of the nominal sizes (26/26/10/10) of the character
classes present in the password, and returns exactly `0` — never touching the
logarithm — when no class is present. -/
theorem entropy_formula (p : String) :
    calculate_entropy p =
      if specCharset p = 0 then 0
      else (p.length : ℝ) * Real.logb 2 (specCharset p) := by
  rw [calculate_entropy, charset_eq_specCharset]
  by_cases h : specCharset p = 0 <;> simp [h]

theorem charset_eq_of_classVector (p q : String) (h : classVector p = classVector q) :
    charset p = charset q := by
  have h1 : hasLower p = hasLower q := congrArg (fun v => v.1) h
  have h2 : hasUpper p = hasUpper q := congrArg (fun v => v.2.1) h
  have h3 : hasDigit p = hasDigit q := congrArg (fun v => v.2.2.1) h
  have h4 : hasSymbol p = hasSymbol q := congrArg (fun v => v.2.2.2) h
  simp only [charset, h1, h2, h3, h4]

/-- **C9.** Extending a password without changing its charset composition
never lowers the entropy estimate: if `p ++ t` has the same present classes
as `p`, then `calculate_entropy p ≤ calculate_entropy (p ++ t)`. -/
theorem entropy_monotone_in_length (p t : String)
    (h : classVector (p ++ t) = classVector p) :
    calculate_entropy p ≤ calculate_entropy (p ++ t) := by
  have hc : charset (p ++ t) = charset p := charset_eq_of_classVector _ _ h
  by_cases h0 : charset p = 0
  · simp [calculate_entropy, h0, hc]
  · have h1 : (1 : ℝ) ≤ (charset p : ℝ) := by
      exact_mod_cast Nat.one_le_iff_ne_zero.mpr h0
    have hlog : 0 ≤ Real.logb 2 (charset p) := Real.logb_nonneg (by norm_num) h1
    have hlen : (p.length : ℝ) ≤ ((p ++ t).length : ℝ) := by
      rw [String.length_append]
      exact_mod_cast Nat.le_add_right _ _
    rw [calculate_entropy, calculate_entropy, hc, if_pos h0, if_pos h0]
    exact mul_le_mul_of_nonneg_right hlen hlog

/-- Witness for C9: `"abc"` extends `"ab"` with the same charset composition
(lowercase only), and the entropy estimate does not decrease. -/
theorem entropy_monotone_in_length_witness :
    classVector ("ab" ++ "c") = classVector "ab" ∧
      calculate_entropy "ab" ≤ calculate_entropy ("ab" ++ "c") :=
  have h : classVector ("ab" ++ "c") = classVector "ab" := by decide
  ⟨h, entropy_monotone_in_length "ab" "c" h⟩

/-- C8 counterexample: the code classifies entropy 29.9 and entropy 30.0
identically (`"High Risk"`), so there is no Weak/Moderate boundary at 30 and
no three-tier classification; the only boundary is at 60. -/
theorem risk_level_no_moderate_tier :
    risk_level (299 / 10) = risk_level 30 ∧ risk_level 30 = "High Risk" ∧
      risk_level (599 / 10) = "High Risk" ∧ risk_level 60 = "Low Risk" := by
  have h1 : (299 / 10 : ℝ) < 60 := by norm_num
  have h2 : (30 : ℝ) < 60 := by norm_num
  have h3 : (599 / 10 : ℝ) < 60 := by norm_num
  have h4 : ¬((60 : ℝ) < 60) := by norm_num
  refine ⟨?_, ?_, ?_, ?_⟩ <;> simp only [risk_level, if_pos h1, if_pos h2, if_pos h3, if_neg h4]

/-- **C8 (amended).** The report classifies into exactly two tiers with the
boundary inclusive on the upper side: `"High Risk"` for score < 60 and
`"Low Risk"` for score ≥ 60; the breach field of the report depends only on
the breach verdict and the risk field only on the score, so neither signal
overrides the other. -/
theorem report_two_tiers_breach_independent (b b' : Bool) (e e' : ℝ) :
    (e < 60 → risk_level e = "High Risk")
    ∧ (60 ≤ e → risk_level e = "Low Risk")
    ∧ (security_report b e).2 = (security_report b' e).2
    ∧ (security_report b e).1 = (security_report b e').1
    ∧ (security_report b e).1 = breach_status b := by
  refine ⟨fun h => ?_, fun h => ?_, rfl, rfl, rfl⟩
  · rw [risk_level, if_pos h]
  · rw [risk_level, if_neg (not_lt.mpr h)]

theorem upper_not_lower {c : Char} (h : isUpperAZ c = true) : isLowerAZ c = false := by
  have h3 : 65 ≤ c.toNat ∧ c.toNat ≤ 90 := by simpa [isUpperAZ] using h
  have h4 : ¬(97 ≤ c.toNat ∧ c.toNat ≤ 122) := by omega
  simpa [isLowerAZ] using h4

theorem digit_not_letter {c : Char} (h : isDigit09 c = true) :
    isLowerAZ c = false ∧ isUpperAZ c = false := by
  have h3 : 48 ≤ c.toNat ∧ c.toNat ≤ 57 := by simpa [isDigit09] using h
  have h4 : ¬(97 ≤ c.toNat ∧ c.toNat ≤ 122) := by omega
  have h5 : ¬(65 ≤ c.toNat ∧ c.toNat ≤ 90) := by omega
  exact ⟨by simpa [isLowerAZ] using h4, by simpa [isUpperAZ] using h5⟩

theorem symbol_not_letter_digit {c : Char} (h : isSymbolSub c = true) :
    isLowerAZ c = false ∧ isUpperAZ c = false ∧ isDigit09 c = false := by
  have hm : c ∈ symbolSubset := by simpa [isSymbolSub] using h
  simp only [symbolSubset] at hm
  fin_cases hm <;> exact ⟨by decide, by decide, by decide⟩

/-- The character class a character belongs to, if any: the four regex class
tests are pairwise disjoint per character. -/
def classOf (c : Char) : Option CharsetClass :=
  if isLowerAZ c then some .lower
  else if isUpperAZ c then some .upper
  else if isDigit09 c then some .digit
  else if isSymbolSub c then some .symbol
  else none

theorem classOf_lower {c : Char} (h : isLowerAZ c = true) : classOf c = some .lower := by
  simp [classOf, h]

theorem classOf_upper {c : Char} (h : isUpperAZ c = true) : classOf c = some .upper := by
  simp [classOf, upper_not_lower h, h]

theorem classOf_digit {c : Char} (h : isDigit09 c = true) : classOf c = some .digit := by
  obtain ⟨h1, h2⟩ := digit_not_letter h
  simp [classOf, h1, h2, h]

theorem classOf_symbol {c : Char} (h : isSymbolSub c = true) : classOf c = some .symbol := by
  obtain ⟨h1, h2, h3⟩ := symbol_not_letter_digit h
  simp [classOf, h1, h2, h3, h]

/-- A password the acceptance test passes holds a character of each of the
four pairwise-disjoint classes, so it has at least 4 characters. -/
theorem accept_four_le_length {pw : List Char} (h : acceptPassword pw = true) :
    4 ≤ pw.length := by
  simp only [acceptPassword, Bool.and_eq_true, List.any_eq_true] at h
  obtain ⟨⟨⟨⟨cU, hUm, hU⟩, cL, hLm, hL⟩, cD, hDm, hD⟩, cS, hSm, hS⟩ := h
  have mU : CharsetClass.upper ∈ pw.filterMap classOf :=
    List.mem_filterMap.mpr ⟨cU, hUm, classOf_upper hU⟩
  have mL : CharsetClass.lower ∈ pw.filterMap classOf :=
    List.mem_filterMap.mpr ⟨cL, hLm, classOf_lower hL⟩
  have mD : CharsetClass.digit ∈ pw.filterMap classOf :=
    List.mem_filterMap.mpr ⟨cD, hDm, classOf_digit hD⟩
  have mS : CharsetClass.symbol ∈ pw.filterMap classOf :=
    List.mem_filterMap.mpr ⟨cS, hSm, classOf_symbol hS⟩
  have hsub : ({CharsetClass.lower, CharsetClass.upper, CharsetClass.digit,
      CharsetClass.symbol} : Finset CharsetClass) ⊆ (pw.filterMap classOf).toFinset := by
    intro x hx
    simp only [Finset.mem_insert, Finset.mem_singleton] at hx
    rcases hx with rfl | rfl | rfl | rfl
    · exact List.mem_toFinset.mpr mL
    · exact List.mem_toFinset.mpr mU
    · exact List.mem_toFinset.mpr mD
    · exact List.mem_toFinset.mpr mS
  calc 4 = ({CharsetClass.lower, CharsetClass.upper, CharsetClass.digit,
        CharsetClass.symbol} : Finset CharsetClass).card := by decide
    _ ≤ (pw.filterMap classOf).toFinset.card := Finset.card_le_card hsub
    _ ≤ (pw.filterMap classOf).length := List.toFinset_card_le _
    _ ≤ pw.length := List.length_filterMap_le _ _

/-- **C5 (the code, not the claim).** `generate_strong_password` performs no
length validation: called with length 3 the rejection loop can never accept
(every 3-character candidate misses one of the four disjoint classes), so
for every draw family, attempt counter and iteration bound it produces no
password — the code loops forever instead of failing with
`InvalidLengthError`. -/
theorem generate_length3_never_returns (draws : Nat → Nat → Fin chars.length)
    (attempt fuel : Nat) :
    generate_strong_password 3 draws attempt fuel = none := by
  induction fuel generalizing attempt with
  | zero => rfl
  | succ n ih =>
    have hlen : (candidate (draws attempt) 3).length = 3 := by simp [candidate]
    cases hacc : acceptPassword (candidate (draws attempt) 3) with
    | true =>
      have h4 := accept_four_le_length hacc
      rw [hlen] at h4
      omega
    | false =>
      simp [generate_strong_password, hacc, ih]

/-- **C6.** Whenever the loop returns a password for a requested length in
`[4, 64]`, the password has exactly that many characters and contains at
least one lowercase letter, one uppercase letter, one digit and one
symbol-subset character. -/
theorem generated_password_class_coverage (length attempt fuel : Nat)
    (draws : Nat → Nat → Fin chars.length) (pw : List Char)
    (h4 : 4 ≤ length) (h64 : length ≤ 64)
    (h : generate_strong_password length draws attempt fuel = some pw) :
    pw.length = length ∧ pw.any isLowerAZ = true ∧ pw.any isUpperAZ = true ∧
      pw.any isDigit09 = true ∧ pw.any isSymbolSub = true := by
  induction fuel generalizing attempt with
  | zero => cases h
  | succ n ih =>
    simp only [generate_strong_password] at h
    cases hacc : acceptPassword (candidate (draws attempt) length) with
    | false =>
      rw [hacc] at h
      simp only [Bool.false_eq_true, if_false] at h
      exact ih _ h
    | true =>
      rw [hacc] at h
      simp only [if_true] at h
      obtain rfl : candidate (draws attempt) length = pw := by
        simpa using h
      simp only [acceptPassword, Bool.and_eq_true] at hacc
      exact ⟨by simp [candidate], hacc.1.1.2, hacc.1.1.1, hacc.1.2, hacc.2⟩

/-- A concrete draw family for the C6 witness: position 0 draws `a`,
position 1 draws `A`, position 2 draws `0`, later positions draw `!`. -/
def witnessDraws : Nat → Nat → Fin chars.length
  | _, 0 => ⟨0, by decide⟩
  | _, 1 => ⟨26, by decide⟩
  | _, 2 => ⟨52, by decide⟩
  | _, _ => ⟨62, by decide⟩

/-- Witness for C6: with requested length 4 the loop accepts the first
candidate `"aA0!"`, which has length 4 and all four classes. -/
theorem generated_password_class_coverage_witness :
    (4 ≤ 4 ∧ (4 : Nat) ≤ 64 ∧
        generate_strong_password 4 witnessDraws 0 1 = some "aA0!".data) ∧
      "aA0!".data.length = 4 ∧ "aA0!".data.any isLowerAZ = true ∧
        "aA0!".data.any isUpperAZ = true ∧ "aA0!".data.any isDigit09 = true ∧
        "aA0!".data.any isSymbolSub = true :=
  ⟨⟨le_refl 4, by decide, by decide⟩,
    generated_password_class_coverage 4 0 1 witnessDraws "aA0!".data
      (by decide) (by decide) (by decide)⟩

/-- C7 counterexample: the drawing alphabet `chars` does not have 72 distinct
values — `string.ascii_letters + string.digits + "!@#$%^&*"` has
52 + 10 + 8 = 70, because the fixed symbol subset holds 8 characters. -/
theorem chars_not_72_distinct : ¬chars.dedup.length = 72 := by decide

/-- **C7 (amended).** The drawing alphabet — ASCII letters, digits and the
fixed symbol subset — has exactly 70 distinct values (it is duplicate-free of
length 70), and every candidate consists of `length` characters, each
selected from that alphabet by its own draw. -/
theorem chars_alphabet_70_distinct (draw : Nat → Fin chars.length) (length : Nat) :
    chars.Nodup ∧ chars.length = 70 ∧ chars.dedup.length = 70 ∧
      (candidate draw length).length = length ∧
      ∀ c ∈ candidate draw length, c ∈ chars := by
  refine ⟨by decide, by decide, by decide, by simp [candidate], ?_⟩
  intro c hc
  simp only [candidate, List.mem_map, List.mem_range] at hc
  obtain ⟨i, _, rfl⟩ := hc
  exact List.get_mem _ _ _
